import Mathlib

/-!
Verification of the easytime checked-time-arithmetic library.

The Rust source is embedded shallowly: `std::time::Duration` becomes
`TDuration` (a pair of `Nat` fields, seconds bounded by `2 ^ 64` where the
std operations check overflow), each easytime wrapper type becomes a
structure holding an `Option` of its primitive, and the bit-level
`try_from_secs!` macro of src/duration.rs is translated as a function of
the raw IEEE-754 bit pattern of its input (a `Nat`).
-/

namespace Easytime

/-- Model of `std::time::Duration`: whole seconds (u64) and subsecond
nanoseconds (u32; the std constructors keep `nanos < 10 ^ 9`). -/
structure TDuration where
  secs : Nat
  nanos : Nat
deriving DecidableEq

/-- Model of `std::time::Duration::from_secs`. -/
def TDuration.from_secs (s : Nat) : TDuration := ⟨s, 0⟩

/-- Model of `std::time::Duration::from_nanos`. -/
def TDuration.from_nanos (n : Nat) : TDuration := ⟨n / 1000000000, n % 1000000000⟩

/-- Model of `std::time::Duration::checked_add`: add seconds with a carry
out of the nanosecond sum, `none` when the u64 seconds field overflows. -/
def TDuration.checked_add (a b : TDuration) : Option TDuration :=
  if a.secs + b.secs < 18446744073709551616 then
    if 1000000000 ≤ a.nanos + b.nanos then
      if a.secs + b.secs + 1 < 18446744073709551616 then
        some ⟨a.secs + b.secs + 1, a.nanos + b.nanos - 1000000000⟩
      else none
    else some ⟨a.secs + b.secs, a.nanos + b.nanos⟩
  else none

/-- Model of `std::time::Duration::checked_sub`: subtract with a borrow
into the nanosecond field, `none` when the difference would be negative. -/
def TDuration.checked_sub (a b : TDuration) : Option TDuration :=
  if b.secs ≤ a.secs then
    if b.nanos ≤ a.nanos then some ⟨a.secs - b.secs, a.nanos - b.nanos⟩
    else if 1 ≤ a.secs - b.secs then
      some ⟨a.secs - b.secs - 1, a.nanos + 1000000000 - b.nanos⟩
    else none
  else none

/-- Model of `std::time::Duration::checked_mul` by a u32 scalar. -/
def TDuration.checked_mul (a : TDuration) (rhs : Nat) : Option TDuration :=
  let totalNanos := a.nanos * rhs
  let extraSecs := totalNanos / 1000000000
  if a.secs * rhs + extraSecs < 18446744073709551616 then
    some ⟨a.secs * rhs + extraSecs, totalNanos % 1000000000⟩
  else none

/-- Model of `std::time::Duration::checked_div` by a u32 scalar:
`none` exactly on division by zero. -/
def TDuration.checked_div (a : TDuration) (rhs : Nat) : Option TDuration :=
  if rhs ≠ 0 then
    let secs := a.secs / rhs
    let carry := a.secs - secs * rhs
    let extraNanos := carry * 1000000000 / rhs
    some ⟨secs, a.nanos / rhs + extraNanos⟩
  else none

/-- Function `pair_and_then` (src/utils.rs lines 17-26): apply a fallible binary
operation to two optional values, short-circuiting to `none` when either
input is absent. -/
def pair_and_then {α β γ : Type} (x : Option α) (y : Option β)
    (f : α → β → Option γ) : Option γ :=
  match x, y with
  | some a, some b => f a b
  | _, _ => none

/-- Type `easytime::Duration` (src/duration.rs line 44): a wrapper holding
`Option<std::time::Duration>`. -/
structure EDuration where
  val : Option TDuration
deriving DecidableEq

/-- Constant `Duration::NONE`. -/
def EDuration.NONE : EDuration := ⟨none⟩

/-- Constant `Duration::ZERO` (`from_nanos 0`). -/
def EDuration.ZERO : EDuration := ⟨some (TDuration.from_nanos 0)⟩

/-- Constructor `Duration::new(secs, nanos)` (src/duration.rs lines 94-98): checked
addition of the nanosecond-derived duration into the seconds-derived one. -/
def EDuration.new (secs nanos : Nat) : EDuration :=
  ⟨TDuration.checked_add (TDuration.from_secs secs) (TDuration.from_nanos nanos)⟩

/-- Rust `impl Add for Duration` (src/duration.rs lines 747-753). -/
def EDuration.add (a b : EDuration) : EDuration :=
  ⟨pair_and_then a.val b.val TDuration.checked_add⟩

/-- Rust `impl Sub for Duration` (src/duration.rs lines 775-781). -/
def EDuration.sub (a b : EDuration) : EDuration :=
  ⟨pair_and_then a.val b.val TDuration.checked_sub⟩

/-- Rust `impl Mul<u32> for Duration` (src/duration.rs lines 803-809). -/
def EDuration.mul (a : EDuration) (rhs : Nat) : EDuration :=
  ⟨a.val.bind fun lhs => lhs.checked_mul rhs⟩

/-- Rust `impl Div<u32> for Duration` (src/duration.rs lines 825-831). -/
def EDuration.div (a : EDuration) (rhs : Nat) : EDuration :=
  ⟨a.val.bind fun lhs => lhs.checked_div rhs⟩

/-! ## The `try_from_secs!` macro (src/duration.rs lines 875-953) -/

/-- The rounding step shared by both fractional branches of
`try_from_secs!` (src/duration.rs lines 904-916 and 923-937): the
candidate count `nanos_tmp >> nanos_offset` plus the increment computed
from the discarded remainder bits. -/
def roundedNanos (nanosTmp nanosOffset : Nat) : Nat :=
  let nanos := nanosTmp >>> nanosOffset
  let remMask := (1 <<< nanosOffset) - 1
  let remMsbMask := 1 <<< (nanosOffset - 1)
  let rem := nanosTmp &&& remMask
  let isTie := rem == remMsbMask
  let isEven := nanos &&& 1 == 0
  let remMsb := nanosTmp &&& remMsbMask == 0
  let addNs := !(remMsb || (isEven && isTie))
  nanos + addNs.toNat

/-- The carry-into-seconds step shared by both fractional branches of
`try_from_secs!` (src/duration.rs lines 916-917 and 937-942), with the
rounding step `rnd` passed in (the source uses `roundedNanos`). -/
def fracResult (rnd : Nat → Nat → Nat) (mantBits secs nanosTmp nanosOffset : Nat) :
    TDuration :=
  let nanos := rnd nanosTmp nanosOffset
  if mantBits == 23 || nanos != 1000000000 then ⟨secs, nanos⟩ else ⟨secs + 1, 0⟩

/-- The body of `try_from_secs!` (src/duration.rs lines 875-953) over the
IEEE-754 bit pattern `bits` of the input; `neg` is the result of the host
float comparison `secs < 0.0`, evaluated by the caller. `rnd` is the
rounding step used in the fractional branches (`roundedNanos` in the
source). -/
def try_from_secs (rnd : Nat → Nat → Nat) (mantBits expBits offset wordBits : Nat)
    (neg : Bool) (bits : Nat) : Option TDuration :=
  if neg then none else
  let minExp : Int := 1 - ((1 <<< expBits) / 2 : Nat)
  let mantMask : Nat := (1 <<< mantBits) - 1
  let expMask : Nat := (1 <<< expBits) - 1
  let mant : Nat := (bits &&& mantMask) ||| (mantMask + 1)
  let exp : Int := (((bits >>> mantBits) &&& expMask : Nat) : Int) + minExp
  if exp < -31 then some ⟨0, 0⟩
  else if exp < 0 then
    let t : Nat := mant <<< ((offset : Int) + exp).toNat
    let nanosOffset := mantBits + offset
    let nanosTmp := 1000000000 * t
    some (fracResult rnd mantBits 0 nanosTmp nanosOffset)
  else if exp < (mantBits : Int) then
    let secs := mant >>> (mantBits - exp.toNat)
    let t : Nat := ((mant <<< exp.toNat) % (1 <<< wordBits)) &&& mantMask
    let nanosTmp := 1000000000 * t
    some (fracResult rnd mantBits secs nanosTmp mantBits)
  else if exp < 64 then some ⟨mant <<< (exp.toNat - mantBits), 0⟩
  else none

/-- Modelled host primitive: the IEEE-754 comparison `secs < 0.0` on a
64-bit float bit pattern — true iff the sign bit is set and the value is
neither negative zero nor a NaN. -/
def f64_lt_zero (bits : Nat) : Bool :=
  decide (2 ^ 63 ≤ bits ∧ bits ≠ 2 ^ 63 ∧
    ¬((bits >>> 52) % 2 ^ 11 = 2047 ∧ bits % 2 ^ 52 ≠ 0))

/-- Modelled host primitive: the IEEE-754 comparison `secs < 0.0` on a
32-bit float bit pattern. -/
def f32_lt_zero (bits : Nat) : Bool :=
  decide (2 ^ 31 ≤ bits ∧ bits ≠ 2 ^ 31 ∧
    ¬((bits >>> 23) % 2 ^ 8 = 255 ∧ bits % 2 ^ 23 ≠ 0))

/-- Function `Duration::try_from_secs_f32` (src/duration.rs lines 957-966). -/
def try_from_secs_f32 (bits : Nat) : Option TDuration :=
  try_from_secs roundedNanos 23 8 41 32 (f32_lt_zero bits) bits

/-- Function `Duration::try_from_secs_f64` (src/duration.rs lines 968-978). -/
def try_from_secs_f64 (bits : Nat) : Option TDuration :=
  try_from_secs roundedNanos 52 11 44 64 (f64_lt_zero bits) bits

/-- Constructor `Duration::from_secs_f32` (src/duration.rs lines 483-485). -/
def EDuration.from_secs_f32 (bits : Nat) : EDuration := ⟨try_from_secs_f32 bits⟩

/-- Constructor `Duration::from_secs_f64` (src/duration.rs lines 452-454). -/
def EDuration.from_secs_f64 (bits : Nat) : EDuration := ⟨try_from_secs_f64 bits⟩

/-! ## Round-half-to-even, as the specification words it -/

/-- Round half to even in the arithmetic terms of the spec: dropping the `k`
low bits of `t`, keep the quotient when the remainder is below half the
discard window, or at an exact tie with an even quotient; otherwise add
one. -/
def roundHalfToEven (t k : Nat) : Nat :=
  let q := t / 2 ^ k
  let r := t % 2 ^ k
  if r < 2 ^ (k - 1) then q
  else if r = 2 ^ (k - 1) ∧ q % 2 = 0 then q
  else q + 1

/-- The bit tests of the source compute exactly the round-half-to-even of the spec. -/
theorem roundedNanos_eq (t k : Nat) (hk : 1 ≤ k) :
    roundedNanos t k = roundHalfToEven t k := by
  have hpow : 2 ^ k = 2 ^ (k - 1) * 2 := by
    rw [← pow_succ]
    congr 1
    omega
  have hhalf : 0 < 2 ^ (k - 1) := Nat.pos_pow_of_pos _ (by norm_num)
  have hmod : t % 2 ^ k = t % 2 ^ (k - 1) + 2 ^ (k - 1) * (t / 2 ^ (k - 1) % 2) := by
    rw [hpow]
    exact Nat.mod_mul
  have hmodlt : t % 2 ^ (k - 1) < 2 ^ (k - 1) := Nat.mod_lt _ hhalf
  simp only [roundedNanos, roundHalfToEven, Nat.shiftRight_eq_div_pow, Nat.one_shiftLeft,
    Nat.and_pow_two_sub_one_eq_mod, Nat.and_one_is_mod, Nat.and_two_pow,
    Nat.testBit_to_div_mod]
  have hb0 : ((2 ^ (k - 1) : Nat) == 0) = false := by
    simp only [beq_eq_false_iff_ne, ne_eq]
    omega
  rcases Nat.mod_two_eq_zero_or_one (t / 2 ^ (k - 1)) with hpar | hpar <;>
    rw [hpar] at hmod <;> simp only [hpar]
  · have hlt : t % 2 ^ k < 2 ^ (k - 1) := by omega
    simp [hlt]
  · have h2 : ¬ t % 2 ^ k < 2 ^ (k - 1) := by omega
    by_cases htie : t % 2 ^ k = 2 ^ (k - 1)
    · by_cases hev : t / 2 ^ k % 2 = 0 <;> simp [h2, htie, hev, hb0]
    · simp [h2, htie, hb0]

/-! ## Instant and SystemTime wrappers -/

/-- Type `easytime::Instant` (src/instant.rs line 60), with the primitive
`std::time::Instant` modelled as the time since an arbitrary origin. -/
structure EInstant where
  val : Option TDuration
deriving DecidableEq

/-- Modelled host primitive `std::time::Instant::checked_duration_since`:
`some (self - earlier)` when `earlier` is not later than `self`, `none`
otherwise — on the model, exactly checked subtraction of durations. -/
def instantCheckedDurationSince (a earlier : TDuration) : Option TDuration :=
  a.checked_sub earlier

/-- Modelled host primitive `std::time::Instant::checked_add` (the
platform-specific overflow bound is that of the model representation). -/
def instantCheckedAdd (a d : TDuration) : Option TDuration :=
  a.checked_add d

/-- Modelled host primitive `std::time::Instant::checked_sub`. -/
def instantCheckedSub (a d : TDuration) : Option TDuration :=
  a.checked_sub d

/-- Method `Instant::duration_since` (src/instant.rs lines 93-96). -/
def EInstant.duration_since (a earlier : EInstant) : EDuration :=
  ⟨pair_and_then a.val earlier.val instantCheckedDurationSince⟩

/-- Rust `impl Add<Duration> for Instant` (src/instant.rs lines 246-252). -/
def EInstant.add (a : EInstant) (d : EDuration) : EInstant :=
  ⟨pair_and_then a.val d.val instantCheckedAdd⟩

/-- Rust `impl Sub<Duration> for Instant` (src/instant.rs lines 274-280). -/
def EInstant.subDur (a : EInstant) (d : EDuration) : EInstant :=
  ⟨pair_and_then a.val d.val instantCheckedSub⟩

/-- Rust `impl Sub for Instant` (src/instant.rs lines 302-308): delegates to
`duration_since`. -/
def EInstant.sub (a b : EInstant) : EDuration := a.duration_since b

/-- Type `easytime::SystemTime` (src/system_time.rs line 38), with the
primitive `std::time::SystemTime` modelled as a signed nanosecond offset
from the UNIX epoch (the wall clock may lie before the epoch). -/
structure ESystemTime where
  val : Option Int
deriving DecidableEq

/-- Modelled host primitive `SystemTime::duration_since(earlier).ok()`
(the closure of src/system_time.rs lines 62-64): the elapsed duration
when `earlier` is not later than `self`, `none` otherwise. -/
def systemTimeDurationSince (a earlier : Int) : Option TDuration :=
  if earlier ≤ a then some (TDuration.from_nanos (a - earlier).toNat) else none

/-- Modelled host primitive `SystemTime::checked_add` (platform range
limits elided: the model offset is unbounded). -/
def systemTimeCheckedAdd (a : Int) (d : TDuration) : Option Int :=
  some (a + ((d.secs : Int) * 1000000000 + (d.nanos : Int)))

/-- Modelled host primitive `SystemTime::checked_sub`. -/
def systemTimeCheckedSub (a : Int) (d : TDuration) : Option Int :=
  some (a - ((d.secs : Int) * 1000000000 + (d.nanos : Int)))

/-- Method `SystemTime::duration_since` (src/system_time.rs lines 61-65). -/
def ESystemTime.duration_since (a earlier : ESystemTime) : EDuration :=
  ⟨pair_and_then a.val earlier.val systemTimeDurationSince⟩

/-- Rust `impl Add<Duration> for SystemTime` (src/system_time.rs lines 147-153). -/
def ESystemTime.add (a : ESystemTime) (d : EDuration) : ESystemTime :=
  ⟨pair_and_then a.val d.val systemTimeCheckedAdd⟩

/-- Rust `impl Sub<Duration> for SystemTime` (src/system_time.rs lines 175-181). -/
def ESystemTime.subDur (a : ESystemTime) (d : EDuration) : ESystemTime :=
  ⟨pair_and_then a.val d.val systemTimeCheckedSub⟩

/-- Rust `impl Sub for SystemTime` (src/system_time.rs lines 203-209):
delegates to `duration_since`. -/
def ESystemTime.sub (a b : ESystemTime) : EDuration := a.duration_since b

/-- Method `SystemTime::elapsed` (src/system_time.rs lines 72-74), `now() - self`,
with the clock reading `now` supplied as a parameter. -/
def ESystemTime.elapsedAt (now a : ESystemTime) : EDuration := ESystemTime.sub now a

/-! ## Conversions and the error type -/

/-- Type `TryFromTimeError` (src/error.rs line 7): a zero-sized marker error. -/
structure TryFromTimeError where
deriving DecidableEq

/-- Rust `impl From<std::time::Duration> for Duration` (src/duration.rs 855-859). -/
def EDuration.fromPrim (d : TDuration) : EDuration := ⟨some d⟩

/-- Method `Duration::into_inner` (src/duration.rs 658-660). -/
def EDuration.into_inner (d : EDuration) : Option TDuration := d.val

/-- Method `Duration::is_some` (src/duration.rs 620-622). -/
def EDuration.is_some (d : EDuration) : Bool := d.val.isSome

/-- Rust `impl TryFrom<Duration> for std::time::Duration` (src/duration.rs 867-873):
`into_inner().ok_or(TryFromTimeError(()))`. -/
def EDuration.try_from (d : EDuration) : Except TryFromTimeError TDuration :=
  match d.into_inner with
  | some x => .ok x
  | none => .error ⟨⟩

/-- Rust `impl From<std::time::Instant> for Instant` (src/instant.rs 226-230). -/
def EInstant.fromPrim (i : TDuration) : EInstant := ⟨some i⟩

/-- Method `Instant::into_inner` (src/instant.rs 168-171). -/
def EInstant.into_inner (i : EInstant) : Option TDuration := i.val

/-- Rust `impl TryFrom<Instant> for std::time::Instant` (src/instant.rs 238-244). -/
def EInstant.try_from (i : EInstant) : Except TryFromTimeError TDuration :=
  match i.into_inner with
  | some x => .ok x
  | none => .error ⟨⟩

/-- Rust `impl From<std::time::SystemTime> for SystemTime` (src/system_time.rs 133-137). -/
def ESystemTime.fromPrim (t : Int) : ESystemTime := ⟨some t⟩

/-- Method `SystemTime::into_inner` (src/system_time.rs 101-104). -/
def ESystemTime.into_inner (t : ESystemTime) : Option Int := t.val

/-- Rust `impl TryFrom<SystemTime> for std::time::SystemTime`
(src/system_time.rs 139-145). -/
def ESystemTime.try_from (t : ESystemTime) : Except TryFromTimeError Int :=
  match t.into_inner with
  | some x => .ok x
  | none => .error ⟨⟩

/-! ## Equality and ordering of the Duration wrapper -/

/-- Derived `Ord` on `std::time::Duration`: lexicographic on the fields. -/
def TDuration.cmp (a b : TDuration) : Ordering :=
  match compare a.secs b.secs with
  | .eq => compare a.nanos b.nanos
  | o => o

/-- Derived `Ord` on `Duration` (src/duration.rs line 43): the derived
ordering of `Option` places `None` below every `Some`. -/
def EDuration.cmp (a b : EDuration) : Ordering :=
  match a.val, b.val with
  | none, none => .eq
  | none, some _ => .lt
  | some _, none => .gt
  | some x, some y => x.cmp y

/-- Derived `PartialOrd` on `Duration`: the derived `partial_cmp` of the
derived total order, which always returns a result. -/
def EDuration.pcmp (a b : EDuration) : Option Ordering := some (a.cmp b)

/-- Derived `PartialEq` on `Duration` is structural; modelled as the
Boolean test of propositional equality. -/
def EDuration.eqb (a b : EDuration) : Bool := decide (a.val = b.val)

/-- Rust `impl PartialEq<std::time::Duration> for Duration` (src/duration.rs
723-727): `self.0 == Some(*other)`. -/
def EDuration.eqPrim (a : EDuration) (p : TDuration) : Bool := decide (a.val = some p)

/-- Rust `impl PartialEq<Duration> for std::time::Duration` (src/duration.rs
729-733): delegates to the other direction. -/
def TDuration.eqWrapper (p : TDuration) (a : EDuration) : Bool := a.eqPrim p

/-- Rust `impl PartialOrd<std::time::Duration> for Duration` (src/duration.rs
735-739): an absent wrapper yields no ordering; a present one compares
with the total order of the primitive. -/
def EDuration.pcmpPrim (a : EDuration) (p : TDuration) : Option Ordering :=
  a.val.bind fun x => some (x.cmp p)

/-- Rust `impl PartialOrd<Duration> for std::time::Duration` (src/duration.rs
741-745). -/
def TDuration.pcmpWrapper (p : TDuration) (a : EDuration) : Option Ordering :=
  a.val.bind fun x => some (p.cmp x)

/-! ## C1: the fractional branches round half to even -/

/-- With a positive discard width, substituting arithmetic
round-half-to-even for the bit tests of the source leaves the fractional
result unchanged. -/
theorem fracResult_round (m s tN k : Nat) (hk : 1 ≤ k) :
    fracResult roundedNanos m s tN k = fracResult roundHalfToEven m s tN k := by
  unfold fracResult
  rw [roundedNanos_eq tN k hk]

/-- For a positive mantissa width, `try_from_secs!` computes the same
result whether the rounding step is the bit tests of the source or arithmetic
round-half-to-even. -/
theorem try_from_secs_round (m e o w : Nat) (neg : Bool) (bits : Nat) (hm : 1 ≤ m) :
    try_from_secs roundedNanos m e o w neg bits
      = try_from_secs roundHalfToEven m e o w neg bits := by
  simp only [try_from_secs]
  split
  · rfl
  split
  · rfl
  split
  · rw [fracResult_round _ _ _ _ (by omega : 1 ≤ m + o)]
  split
  · rw [fracResult_round _ _ _ _ hm]
  split
  · rfl
  · rfl

/-- Claim C1. In `try_from_secs_f64` / `try_from_secs_f32`, for every input
whose exponent selects a fractional case, the candidate nanosecond count
is rounded half to even on the discarded remainder bits: at every bit
pattern, the conversion built on the bit tests of the source (keep the count
when the most significant discarded bit is zero, or at an exact tie with
an even count; otherwise add one nanosecond) equals the same algorithm
with arithmetic round-half-to-even substituted for the rounding step. -/
theorem c1_fractional_rounding_is_half_to_even (bits : Nat) :
    try_from_secs_f64 bits
      = try_from_secs roundHalfToEven 52 11 44 64 (f64_lt_zero bits) bits ∧
    try_from_secs_f32 bits
      = try_from_secs roundHalfToEven 23 8 41 32 (f32_lt_zero bits) bits :=
  ⟨try_from_secs_round 52 11 44 64 _ bits (by norm_num),
   try_from_secs_round 23 8 41 32 _ bits (by norm_num)⟩

/-- Claim C10. For the IEEE-754 negative-zero inputs (bit patterns `2 ^ 63`
and `2 ^ 31`), `from_secs_f64` and `from_secs_f32` return the present
zero duration, not an absent value: the strict negativity test is false
at negative zero, whose exponent then falls into the below-one-nanosecond
case. -/
theorem c10_neg_zero_is_present_zero :
    EDuration.from_secs_f64 9223372036854775808 = EDuration.ZERO ∧
    EDuration.from_secs_f32 2147483648 = EDuration.ZERO ∧
    f64_lt_zero 9223372036854775808 = false ∧
    f32_lt_zero 2147483648 = false := by
  refine ⟨?_, ?_, ?_, ?_⟩ <;> decide

/-! ## C4-C9: wrapper-level properties -/

/-- Claim C4. Absence is absorbing: `pair_and_then` yields `none` whenever
either input is absent and yields a present value exactly when both
inputs are present and the combining operation succeeds; every arithmetic
operation of the three wrappers propagates an absent operand to an absent
result and, on present operands, delegates to the underlying checked
operation. -/
theorem c4_absence_is_absorbing :
    (∀ (α β γ : Type) (y : Option β) (f : α → β → Option γ),
        pair_and_then none y f = none) ∧
    (∀ (α β γ : Type) (x : Option α) (f : α → β → Option γ),
        pair_and_then x none f = none) ∧
    (∀ (α β γ : Type) (x : Option α) (y : Option β) (f : α → β → Option γ) (c : γ),
        pair_and_then x y f = some c
          ↔ ∃ a b, x = some a ∧ y = some b ∧ f a b = some c) ∧
    (∀ d : EDuration,
        EDuration.add ⟨none⟩ d = ⟨none⟩ ∧ EDuration.add d ⟨none⟩ = ⟨none⟩ ∧
        EDuration.sub ⟨none⟩ d = ⟨none⟩ ∧ EDuration.sub d ⟨none⟩ = ⟨none⟩) ∧
    (∀ n : Nat, EDuration.mul ⟨none⟩ n = ⟨none⟩ ∧ EDuration.div ⟨none⟩ n = ⟨none⟩) ∧
    (∀ a b : TDuration,
        EDuration.add ⟨some a⟩ ⟨some b⟩ = ⟨a.checked_add b⟩ ∧
        EDuration.sub ⟨some a⟩ ⟨some b⟩ = ⟨a.checked_sub b⟩) ∧
    (∀ (a : TDuration) (n : Nat),
        EDuration.mul ⟨some a⟩ n = ⟨a.checked_mul n⟩ ∧
        EDuration.div ⟨some a⟩ n = ⟨a.checked_div n⟩) ∧
    (∀ (i : EInstant) (d : EDuration),
        EInstant.add ⟨none⟩ d = ⟨none⟩ ∧ EInstant.add i ⟨none⟩ = ⟨none⟩ ∧
        EInstant.subDur ⟨none⟩ d = ⟨none⟩ ∧ EInstant.subDur i ⟨none⟩ = ⟨none⟩ ∧
        EInstant.duration_since ⟨none⟩ i = ⟨none⟩ ∧
        EInstant.duration_since i ⟨none⟩ = ⟨none⟩) ∧
    (∀ a b : TDuration,
        EInstant.add ⟨some a⟩ ⟨some b⟩ = ⟨instantCheckedAdd a b⟩ ∧
        EInstant.subDur ⟨some a⟩ ⟨some b⟩ = ⟨instantCheckedSub a b⟩ ∧
        EInstant.duration_since ⟨some a⟩ ⟨some b⟩ = ⟨instantCheckedDurationSince a b⟩) ∧
    (∀ (t : ESystemTime) (d : EDuration),
        ESystemTime.add ⟨none⟩ d = ⟨none⟩ ∧ ESystemTime.add t ⟨none⟩ = ⟨none⟩ ∧
        ESystemTime.subDur ⟨none⟩ d = ⟨none⟩ ∧ ESystemTime.subDur t ⟨none⟩ = ⟨none⟩ ∧
        ESystemTime.duration_since ⟨none⟩ t = ⟨none⟩ ∧
        ESystemTime.duration_since t ⟨none⟩ = ⟨none⟩) ∧
    (∀ (a : Int) (b : TDuration) (c : Int),
        ESystemTime.add ⟨some a⟩ ⟨some b⟩ = ⟨systemTimeCheckedAdd a b⟩ ∧
        ESystemTime.subDur ⟨some a⟩ ⟨some b⟩ = ⟨systemTimeCheckedSub a b⟩ ∧
        ESystemTime.duration_since ⟨some a⟩ ⟨some c⟩ = ⟨systemTimeDurationSince a c⟩) := by
  refine ⟨fun α β γ y f => by cases y <;> rfl,
          fun α β γ x f => by cases x <;> rfl,
          fun α β γ x y f c => by cases x <;> cases y <;> simp [pair_and_then],
          fun d => ?_, fun n => ⟨rfl, rfl⟩, fun a b => ⟨rfl, rfl⟩,
          fun a n => ⟨rfl, rfl⟩, fun i d => ?_, fun a b => ⟨rfl, rfl, rfl⟩,
          fun t d => ?_, fun a b c => ⟨rfl, rfl, rfl⟩⟩
  · obtain ⟨v⟩ := d
    exact ⟨by cases v <;> rfl, by cases v <;> rfl, by cases v <;> rfl, by cases v <;> rfl⟩
  · obtain ⟨v⟩ := i
    exact ⟨by cases v <;> rfl, by cases v <;> rfl, by cases v <;> rfl, by cases v <;> rfl,
      by cases v <;> rfl, by cases v <;> rfl⟩
  · obtain ⟨v⟩ := t
    exact ⟨by cases v <;> rfl, by cases v <;> rfl, by cases v <;> rfl, by cases v <;> rfl,
      by cases v <;> rfl, by cases v <;> rfl⟩

/-- Claim C5, divergence witness. For the present instants at 0 s and 1 s
since the origin, `Instant::duration_since` of the earlier against the
later returns the absent Duration — not the zero duration asserted by the
claim and by the test of the repository itself (tests/instant.rs line 113). -/
theorem c5_duration_since_reversed_is_absent :
    EInstant.duration_since ⟨some ⟨0, 0⟩⟩ ⟨some ⟨1, 0⟩⟩ = EDuration.NONE ∧
    EInstant.duration_since ⟨some ⟨0, 0⟩⟩ ⟨some ⟨1, 0⟩⟩ ≠ EDuration.ZERO := by
  decide

/-- Claim C6, counterexample. The claim that an absent Duration has no
ordering against any present value fails: the derived total order places
the absent wrapper strictly below the present zero duration, so the
derived partial comparison yields a result. -/
theorem c6_counterexample :
    EDuration.pcmp EDuration.NONE (EDuration.fromPrim ⟨0, 0⟩) = some Ordering.lt ∧
    EDuration.pcmp EDuration.NONE (EDuration.fromPrim ⟨0, 0⟩) ≠ none := by
  decide

/-- Claim C6, amended. Two absent Durations compare equal; an absent
Duration is unequal to every present wrapper value and to every raw
primitive duration, and has no ordering against raw primitive values;
against present wrapper values, however, the derived total order sorts
the absent value strictly below (and the derived partial comparison
returns that result). -/
theorem c6_absent_comparisons :
    EDuration.eqb EDuration.NONE EDuration.NONE = true ∧
    (∀ d : TDuration,
      EDuration.eqb EDuration.NONE (EDuration.fromPrim d) = false ∧
      EDuration.eqb (EDuration.fromPrim d) EDuration.NONE = false ∧
      EDuration.eqPrim EDuration.NONE d = false ∧
      TDuration.eqWrapper d EDuration.NONE = false ∧
      EDuration.pcmpPrim EDuration.NONE d = none ∧
      TDuration.pcmpWrapper d EDuration.NONE = none ∧
      EDuration.pcmp EDuration.NONE (EDuration.fromPrim d) = some Ordering.lt ∧
      EDuration.pcmp (EDuration.fromPrim d) EDuration.NONE = some Ordering.gt) :=
  ⟨rfl, fun d => ⟨rfl, rfl, rfl, rfl, rfl, rfl, rfl, rfl⟩⟩

/-- Claim C7. `Duration::new(secs, nanos)` carries whole seconds out of a
nanosecond argument of one billion or more via checked addition, and the
result is absent exactly when the carried seconds exceed the maximum
representable duration. -/
theorem c7_new_normalizes (secs nanos : Nat)
    (hs : secs < 18446744073709551616) (hn : nanos < 4294967296) :
    (EDuration.new secs nanos).val
      = if secs + nanos / 1000000000 < 18446744073709551616 then
          some ⟨secs + nanos / 1000000000, nanos % 1000000000⟩
        else none := by
  have h1 : nanos % 1000000000 < 1000000000 := Nat.mod_lt _ (by norm_num)
  simp only [EDuration.new, TDuration.checked_add, TDuration.from_secs, TDuration.from_nanos]
  rw [if_neg (by omega : ¬ 1000000000 ≤ 0 + nanos % 1000000000)]
  split
  · norm_num
  · rfl

/-- Witness for C7: a nanosecond argument above one billion carries into
the seconds field. -/
theorem c7_witness :
    (EDuration.new 5 1500000000).val
      = if 5 + 1500000000 / 1000000000 < 18446744073709551616 then
          some ⟨5 + 1500000000 / 1000000000, 1500000000 % 1000000000⟩
        else none :=
  c7_new_normalizes 5 1500000000 (by norm_num) (by norm_num)

/-- Claim C8. For every pair of present SystemTime values,
`SystemTime::duration_since` returns the present elapsed duration when
`earlier` is not later than `self`, and the absent Duration — never a
clamped zero — when `earlier` is actually later; `elapsed` is
`now() - self`, delegating to the same fallible `duration_since`. -/
theorem c8_system_time_duration_since (a b : Int) :
    (ESystemTime.duration_since ⟨some a⟩ ⟨some b⟩
      = if b ≤ a then ⟨some (TDuration.from_nanos (a - b).toNat)⟩ else EDuration.NONE) ∧
    (∀ now x : ESystemTime, ESystemTime.elapsedAt now x = ESystemTime.duration_since now x) := by
  constructor
  · by_cases h : b ≤ a <;>
      simp [ESystemTime.duration_since, pair_and_then, systemTimeDurationSince,
        EDuration.NONE, h]
  · intro now x
    rfl

/-- Claim C9. Wrapping a primitive always succeeds; the fallible conversion
back to the primitive succeeds exactly on present wrappers and fails with
`TryFromTimeError` on absent ones; and extracting then re-wrapping a
present wrapper of any of the three types yields the original value. -/
theorem c9_roundtrip :
    (∀ p : TDuration, EDuration.fromPrim p = ⟨some p⟩ ∧
        EDuration.try_from (EDuration.fromPrim p) = .ok p) ∧
    EDuration.try_from ⟨none⟩ = .error ⟨⟩ ∧
    (∀ (w : EDuration) (p : TDuration),
        EDuration.try_from w = .ok p → EDuration.fromPrim p = w) ∧
    (∀ p : TDuration, EInstant.fromPrim p = ⟨some p⟩ ∧
        EInstant.try_from (EInstant.fromPrim p) = .ok p) ∧
    EInstant.try_from ⟨none⟩ = .error ⟨⟩ ∧
    (∀ (w : EInstant) (p : TDuration),
        EInstant.try_from w = .ok p → EInstant.fromPrim p = w) ∧
    (∀ p : Int, ESystemTime.fromPrim p = ⟨some p⟩ ∧
        ESystemTime.try_from (ESystemTime.fromPrim p) = .ok p) ∧
    ESystemTime.try_from ⟨none⟩ = .error ⟨⟩ ∧
    (∀ (w : ESystemTime) (p : Int),
        ESystemTime.try_from w = .ok p → ESystemTime.fromPrim p = w) := by
  refine ⟨fun p => ⟨rfl, rfl⟩, rfl, fun w p h => ?_, fun p => ⟨rfl, rfl⟩, rfl,
          fun w p h => ?_, fun p => ⟨rfl, rfl⟩, rfl, fun w p h => ?_⟩ <;>
    · obtain ⟨v⟩ := w
      cases v <;> simp_all [EDuration.try_from, EInstant.try_from, ESystemTime.try_from,
        EDuration.into_inner, EInstant.into_inner, ESystemTime.into_inner,
        EDuration.fromPrim, EInstant.fromPrim, ESystemTime.fromPrim]

/-- Witness for C9: the fallible conversion inverts wrapping at a
concrete present Duration. -/
theorem c9_witness : EDuration.fromPrim ⟨1, 2⟩ = (⟨some ⟨1, 2⟩⟩ : EDuration) :=
  c9_roundtrip.2.2.1 ⟨some ⟨1, 2⟩⟩ ⟨1, 2⟩ rfl

/-! ## C2: exactly the ruled-out inputs produce an absent Duration -/

/-- NaN test on a 64-bit IEEE-754 pattern: exponent field all ones and
nonzero mantissa. -/
def f64_is_nan (bits : Nat) : Bool :=
  decide ((bits >>> 52) % 2 ^ 11 = 2047 ∧ bits % 2 ^ 52 ≠ 0)

/-- Infinity test on a 64-bit IEEE-754 pattern: exponent field all ones
and zero mantissa. -/
def f64_is_infinite (bits : Nat) : Bool :=
  decide ((bits >>> 52) % 2 ^ 11 = 2047 ∧ bits % 2 ^ 52 = 0)

/-- Unbiased exponent of a 64-bit IEEE-754 pattern. -/
def f64_exp (bits : Nat) : Int := ((bits >>> 52) % 2 ^ 11 : Nat) - 1023

/-- NaN test on a 32-bit IEEE-754 pattern. -/
def f32_is_nan (bits : Nat) : Bool :=
  decide ((bits >>> 23) % 2 ^ 8 = 255 ∧ bits % 2 ^ 23 ≠ 0)

/-- Infinity test on a 32-bit IEEE-754 pattern. -/
def f32_is_infinite (bits : Nat) : Bool :=
  decide ((bits >>> 23) % 2 ^ 8 = 255 ∧ bits % 2 ^ 23 = 0)

/-- Unbiased exponent of a 32-bit IEEE-754 pattern. -/
def f32_exp (bits : Nat) : Int := ((bits >>> 23) % 2 ^ 8 : Nat) - 127

/-- The 64-bit conversion is absent exactly on the ruled-out inputs. -/
theorem from_secs_f64_none_iff (bits : Nat) :
    (EDuration.from_secs_f64 bits).val = none ↔
      f64_lt_zero bits = true ∨ f64_is_nan bits = true ∨ f64_is_infinite bits = true ∨
        64 ≤ f64_exp bits := by
  have hE : bits / 4503599627370496 &&& 2047 = bits / 4503599627370496 % 2048 := by
    have h1 := Nat.and_pow_two_sub_one_eq_mod (bits / 4503599627370496) 11
    norm_num at h1
    exact h1
  by_cases hneg : f64_lt_zero bits = true
  · simp [EDuration.from_secs_f64, try_from_secs_f64, try_from_secs, hneg]
  · simp only [Bool.not_eq_true] at hneg
    simp only [EDuration.from_secs_f64, try_from_secs_f64, try_from_secs, hneg,
      f64_is_nan, f64_is_infinite, f64_exp, decide_eq_true_eq]
    norm_num [Nat.one_shiftLeft, Nat.shiftRight_eq_div_pow]
    simp only [hE]
    push_cast
    split
    · exact iff_of_false (by simp) (by omega)
    split
    · exact iff_of_false (by simp) (by omega)
    split
    · exact iff_of_false (by simp) (by omega)
    split
    · exact iff_of_false (by simp) (by omega)
    · exact iff_of_true rfl (by omega)

/-- The 32-bit conversion is absent exactly on the ruled-out inputs. -/
theorem from_secs_f32_none_iff (bits : Nat) :
    (EDuration.from_secs_f32 bits).val = none ↔
      f32_lt_zero bits = true ∨ f32_is_nan bits = true ∨ f32_is_infinite bits = true ∨
        64 ≤ f32_exp bits := by
  have hE : bits / 8388608 &&& 255 = bits / 8388608 % 256 := by
    have h1 := Nat.and_pow_two_sub_one_eq_mod (bits / 8388608) 8
    norm_num at h1
    exact h1
  by_cases hneg : f32_lt_zero bits = true
  · simp [EDuration.from_secs_f32, try_from_secs_f32, try_from_secs, hneg]
  · simp only [Bool.not_eq_true] at hneg
    simp only [EDuration.from_secs_f32, try_from_secs_f32, try_from_secs, hneg,
      f32_is_nan, f32_is_infinite, f32_exp, decide_eq_true_eq]
    norm_num [Nat.one_shiftLeft, Nat.shiftRight_eq_div_pow]
    simp only [hE]
    push_cast
    split
    · exact iff_of_false (by simp) (by omega)
    split
    · exact iff_of_false (by simp) (by omega)
    split
    · exact iff_of_false (by simp) (by omega)
    split
    · exact iff_of_false (by simp) (by omega)
    · exact iff_of_true rfl (by omega)

/-- Claim C2. Here `from_secs_f64` and `from_secs_f32` return an absent Duration
exactly for the ruled-out inputs — strictly negative values, NaNs,
infinities, and values whose unbiased exponent is at least 64 — and a
present Duration for every other bit pattern; in particular the zero
input (bit pattern 0) yields the present zero duration. -/
theorem c2_from_secs_absent_iff_ruled_out :
    (∀ bits : Nat,
      ((EDuration.from_secs_f64 bits).val = none ↔
        f64_lt_zero bits = true ∨ f64_is_nan bits = true ∨ f64_is_infinite bits = true ∨
          64 ≤ f64_exp bits)) ∧
    EDuration.from_secs_f64 0 = EDuration.ZERO ∧
    (∀ bits : Nat,
      ((EDuration.from_secs_f32 bits).val = none ↔
        f32_lt_zero bits = true ∨ f32_is_nan bits = true ∨ f32_is_infinite bits = true ∨
          64 ≤ f32_exp bits)) ∧
    EDuration.from_secs_f32 0 = EDuration.ZERO :=
  ⟨from_secs_f64_none_iff, by decide, from_secs_f32_none_iff, by decide⟩

/-! ## C3: the nanosecond carry and its unreachability for f32 -/

/-- The rounding step exceeds the dropped quotient by at most one. -/
theorem roundedNanos_le (t k : Nat) : roundedNanos t k ≤ t / 2 ^ k + 1 := by
  simp only [roundedNanos, Nat.shiftRight_eq_div_pow]
  exact Nat.add_le_add_left (Bool.toNat_le _) _

/-- In the f32 sub-one-second branch the rounded count stays strictly
below one billion: the mantissa has at most 24 bits and the shift at
most 40, so the scaled value lies measurably below one second. -/
theorem roundedNanos_f32_frac1_lt (mant s : Nat) (hm : mant < 2 ^ 24) (hs : s ≤ 40) :
    roundedNanos (1000000000 * (mant <<< s)) 64 < 1000000000 := by
  have h1 : mant <<< s ≤ (2 ^ 24 - 1) * 2 ^ 40 := by
    rw [Nat.shiftLeft_eq]
    exact Nat.mul_le_mul (by omega) (Nat.pow_le_pow_right (by norm_num) hs)
  have h2 : 1000000000 * (mant <<< s) / 2 ^ 64
      ≤ 1000000000 * ((2 ^ 24 - 1) * 2 ^ 40) / 2 ^ 64 :=
    Nat.div_le_div_right (Nat.mul_le_mul_left _ h1)
  have h3 : 1000000000 * ((2 ^ 24 - 1) * 2 ^ 40) / 2 ^ 64 = 999999940 := by decide
  have h4 := roundedNanos_le (1000000000 * (mant <<< s)) 64
  omega

/-- In the f32 mixed branch the fractional part has at most 23 bits, so
the rounded count stays strictly below one billion. -/
theorem roundedNanos_f32_frac2_lt (t : Nat) (ht : t < 2 ^ 23) :
    roundedNanos (1000000000 * t) 23 < 1000000000 := by
  have h2 : 1000000000 * t / 2 ^ 23 ≤ 1000000000 * (2 ^ 23 - 1) / 2 ^ 23 :=
    Nat.div_le_div_right (Nat.mul_le_mul_left _ (by omega))
  have h3 : 1000000000 * (2 ^ 23 - 1) / 2 ^ 23 = 999999880 := by decide
  have h4 := roundedNanos_le (1000000000 * t) 23
  omega

/-- Claim C3. When the rounded nanosecond count reaches exactly one billion
the 64-bit fractional branches carry into the seconds field (seconds
incremented, nanoseconds zeroed); for the 32-bit width the rounded count
can never equal one billion in either fractional branch — the mantissa
and shift ranges forced by any finite non-negative f32 input keep it
strictly below — so the carry check skipped for that width is
unreachable and every present f32 conversion result has a subsecond
field below one billion. -/
theorem c3_nanos_carry :
    (∀ secs tN k : Nat, roundedNanos tN k = 1000000000 →
        fracResult roundedNanos 52 secs tN k = ⟨secs + 1, 0⟩) ∧
    (∀ mant s : Nat, mant < 2 ^ 24 → s ≤ 40 →
        roundedNanos (1000000000 * (mant <<< s)) 64 ≠ 1000000000) ∧
    (∀ t : Nat, t < 2 ^ 23 →
        roundedNanos (1000000000 * t) 23 ≠ 1000000000) ∧
    (∀ (bits : Nat) (d : TDuration), try_from_secs_f32 bits = some d →
        d.nanos < 1000000000) := by
  refine ⟨fun secs tN k h => ?_, fun mant s hm hs => Nat.ne_of_lt ?_,
          fun t ht => Nat.ne_of_lt (roundedNanos_f32_frac2_lt t ht),
          fun bits d h => ?_⟩
  · simp [fracResult, h]
  · exact roundedNanos_f32_frac1_lt mant s hm hs
  · simp only [try_from_secs_f32, try_from_secs] at h
    norm_num [Nat.one_shiftLeft] at h
    obtain ⟨-, h⟩ := h
    split at h
    · obtain rfl := Option.some.inj h
      decide
    split at h
    · rename_i hE1 hE2
      obtain rfl := Option.some.inj h
      simp only [fracResult]
      norm_num
      exact roundedNanos_f32_frac1_lt _ _
        (Nat.or_lt_two_pow (lt_of_le_of_lt Nat.and_le_right (by norm_num)) (by norm_num))
        (by omega)
    split at h
    · rename_i hE1 hE2 hE3
      obtain rfl := Option.some.inj h
      simp only [fracResult]
      norm_num
      exact roundedNanos_f32_frac2_lt _ (lt_of_le_of_lt Nat.and_le_right (by norm_num))
    split at h
    · obtain rfl := Option.some.inj h
      norm_num
    · exact absurd h (by simp)

/-- Witness for C3: a carry at a concrete rounded count of one billion,
the two f32 bounds at their extreme concrete inputs, and a concrete
present f32 conversion. -/
theorem c3_witness :
    fracResult roundedNanos 52 7 2000000000 1 = ⟨8, 0⟩ ∧
    roundedNanos (1000000000 * (8388608 <<< 40)) 64 ≠ 1000000000 ∧
    roundedNanos (1000000000 * 4194304) 23 ≠ 1000000000 ∧
    TDuration.nanos ⟨0, 420⟩ < 1000000000 :=
  ⟨c3_nanos_carry.1 7 2000000000 1 (by decide),
   c3_nanos_carry.2.1 8388608 40 (by decide) (by decide),
   c3_nanos_carry.2.2.1 4194304 (by decide),
   c3_nanos_carry.2.2.2 887192668 ⟨0, 420⟩ (by decide)⟩

end Easytime
